import Mathlib

/-!
# Verification of the ellalang variable-resolution pass

A shallow embedding of `src/ella-passes/src/resolve.rs` (the `Resolver`
variable-resolution and closure-capture pass) together with theorems settling
the specification claims about it.

Modelling conventions:
* Rust `Rc<RefCell<Symbol>>` shared-mutable records are modelled by an arena:
  `Resolver.symbols` is the list of every `Symbol` ever created and every
  table / working list stores arena indices (`Nat`).  Mutating a symbol
  through any of its aliases is modelled by updating the arena slot, which is
  observable through every alias, exactly as in the Rust code.
* Rust `HashMap` tables keyed by AST-node address are modelled by association
  lists keyed by an explicit node id; insertion conses (so a later insert for
  the same key shadows the earlier one, as `HashMap::insert` overwrites) and
  lookup takes the first hit.
* Machine integers: `i32` offsets are modelled by `Int`, `u32`/`usize` depths,
  indices and lengths by `Nat`.  The programs in all claims are far below any
  overflow boundary.
-/

namespace Ella

/-- Mirrors `ResolvedUpValue` (resolve.rs lines 56-60). -/
structure ResolvedUpValue where
  is_local : Bool
  index : Int
deriving DecidableEq

/-- Mirrors `Symbol` (resolve.rs lines 46-53).  `stmt : Option Nat` models the
possibly-null `*const Stmt` back pointer as an optional statement node id. -/
structure Symbol where
  ident : String
  scope_depth : Nat
  is_captured : Bool
  upvalues : List ResolvedUpValue
  stmt : Option Nat
deriving DecidableEq

instance : Inhabited Symbol := ⟨{ ident := "", scope_depth := 0, is_captured := false,
                                  upvalues := [], stmt := none }⟩

/-- Mirrors `ResolvedSymbol` (resolve.rs lines 63-71); `symbol` is the arena id
of the shared `Rc<RefCell<Symbol>>`. -/
structure ResolvedSymbol where
  offset : Int
  is_global : Bool
  is_upvalue : Bool
  symbol : Nat
deriving DecidableEq

/-- Mirrors `ella_source::SyntaxError` as produced by
`SyntaxError::new(message, span).with_help(help)` in resolve.rs. -/
structure Diagnostic where
  message : String
  span : Nat × Nat
  help : Option String
deriving DecidableEq

/-- Association-list lookup mirroring `HashMap::get` (first, i.e. most recent,
binding wins, matching `HashMap::insert` overwrite semantics). -/
def lookupTable {α : Type} (t : List (Nat × α)) (k : Nat) : Option α :=
  (t.find? (fun p => p.1 == k)).map (fun p => p.2)

/-- Mirrors the `Resolver` state (resolve.rs lines 79-94).  The diagnostics
sink `source.errors` is carried as the `errors` field. -/
structure Resolver where
  symbols : List Symbol
  symbol_table : List (Nat × Nat)
  resolved_symbol_table : List (Nat × ResolvedSymbol)
  accessible_symbols : List Nat
  function_scope_depths : List Nat
  current_func_offset : Int
  function_upvalues : List (List ResolvedUpValue)
  errors : List Diagnostic
deriving DecidableEq

/-- Mirrors `ResolveResult` (resolve.rs lines 17-21); the arena travels with it
because in Rust the `Rc` graph is implicitly shared by the three tables. -/
structure ResolveResult where
  symbols : List Symbol
  symbol_table : List (Nat × Nat)
  resolved_symbol_table : List (Nat × ResolvedSymbol)
  accessible_symbols : List Nat
deriving DecidableEq

namespace Resolver

/-- Read a symbol through an arena id (a `borrow()` of the shared record). -/
def getSym (rs : Resolver) (sid : Nat) : Symbol :=
  rs.symbols.getD sid default

/-- Write a symbol through an arena id (a `borrow_mut()` of the shared record). -/
def setSym (rs : Resolver) (sid : Nat) (sym : Symbol) : Resolver :=
  { rs with symbols := rs.symbols.set sid sym }

/-- `*self.function_scope_depths.last().unwrap()`. -/
def topDepth (rs : Resolver) : Nat :=
  rs.function_scope_depths.getLastD 0

/-- `*self.function_scope_depths.last_mut().unwrap() = d`. -/
def setTopDepth (rs : Resolver) (d : Nat) : Resolver :=
  { rs with function_scope_depths := rs.function_scope_depths.dropLast ++ [d] }

/-- Mirrors `Resolver::new` (resolve.rs lines 98-108). -/
def new : Resolver :=
  { symbols := [], symbol_table := [], resolved_symbol_table := [],
    accessible_symbols := [], function_scope_depths := [0],
    current_func_offset := 0, function_upvalues := [[]], errors := [] }

/-- Mirrors `Resolver::new_with_existing_resolve_result` (lines 113-123):
the three tables are imported, everything else comes from `Self::new`
(in particular a fresh diagnostics sink for the new `Source`). -/
def new_with_existing_resolve_result (rr : ResolveResult) : Resolver :=
  { new with
    symbols := rr.symbols,
    symbol_table := rr.symbol_table,
    resolved_symbol_table := rr.resolved_symbol_table,
    accessible_symbols := rr.accessible_symbols }

/-- Mirrors `Resolver::into_resolve_result` (lines 127-133). -/
def into_resolve_result (rs : Resolver) : ResolveResult :=
  { symbols := rs.symbols,
    symbol_table := rs.symbol_table,
    resolved_symbol_table := rs.resolved_symbol_table,
    accessible_symbols := rs.accessible_symbols }

/-- Mirrors `Resolver::enter_scope` (lines 136-138). -/
def enter_scope (rs : Resolver) : Resolver :=
  rs.setTopDepth (rs.topDepth + 1)

/-- Mirrors `Resolver::exit_scope` (lines 141-153): decrement the top scope
depth, then keep only the accessible symbols whose declaring depth is at most
the new top depth. -/
def exit_scope (rs : Resolver) : Resolver :=
  let rs1 := rs.setTopDepth (rs.topDepth - 1)
  let kept := rs1.accessible_symbols.filter
    (fun sid => decide ((rs1.getSym sid).scope_depth ≤ rs1.topDepth))
  { rs1 with accessible_symbols := kept }

/-- Mirrors `Resolver::add_symbol` (lines 156-172): create the symbol at the
current scope depth, push it onto `accessible_symbols`, and (when backed by a
declaration statement) insert it into `symbol_table`. -/
def add_symbol (rs : Resolver) (ident : String) (stmt : Option Nat) : Resolver :=
  let sym : Symbol :=
    { ident := ident, scope_depth := rs.topDepth, is_captured := false,
      upvalues := [], stmt := stmt }
  let sid := rs.symbols.length
  let rs1 := { rs with
    symbols := rs.symbols ++ [sym],
    accessible_symbols := rs.accessible_symbols ++ [sid] }
  match stmt with
  | some s => { rs1 with symbol_table := (s, sid) :: rs1.symbol_table }
  | none => rs1

end Resolver

/-- Mirrors `Resolver::find_function_scope_depth` (lines 175-182): scan the
`function_scope_depths` stack from innermost (end) to outermost; return `i + 1`
for the first entry at index `i` whose value is strictly less than the queried
depth, and `0` when there is none. -/
def ffsdList : List Nat → Nat → Nat
  | [], _ => 0
  | d :: rest, s =>
    let r := ffsdList rest s
    if r ≠ 0 then r + 1 else if d < s then 1 else 0

def Resolver.find_function_scope_depth (rs : Resolver) (scope_depth : Nat) : Nat :=
  ffsdList rs.function_scope_depths scope_depth

/-- Mirrors `Resolver::in_same_function_scope` (lines 185-187). -/
def Resolver.in_same_function_scope (rs : Resolver) (first second : Nat) : Bool :=
  rs.find_function_scope_depth first == rs.find_function_scope_depth second

/-- Mirrors the scan `for (i, symbol) in self.accessible_symbols.iter()
.enumerate().rev()` with the match test of line 201: the first match scanning
from the end of the list, returned as (list index, arena id). -/
def scanAccessible (symbols : List Symbol) (ident : String) : List Nat → Option (Nat × Nat)
  | [] => none
  | sid :: rest =>
    match scanAccessible symbols ident rest with
    | some (i, s) => some (i + 1, s)
    | none =>
      if (symbols.getD sid default).ident == ident then some (0, sid) else none

/-- The unresolved-symbol diagnostic of resolve.rs lines 240-243. -/
def unresolvedDiag (ident : String) (span : Nat × Nat) : Diagnostic :=
  { message := "cannot resolve symbol \"" ++ ident ++ "\"",
    span := span,
    help := some ("make sure symbol \"" ++ ident ++ "\" is in scope") }

/-- The invalid-assignment-target diagnostic of resolve.rs lines 302-305. -/
def invalidAssignDiag (span : Nat × Nat) : Diagnostic :=
  { message := "invalid left-hand side of assignment",
    span := span,
    help := some "left-hand side of an assignment must be an identifier" }

/-- Mirrors the upvalue-threading loop of resolve.rs lines 214-231, iterating
`count` times starting at function level `sd` with running `prev_upvalue_index`
`prev`.  Each iteration pushes one `ResolvedUpValue` onto level `sd`'s list:
`is_local` is `sd == symbol.scope_depth + 1` (line 220), the index is the
accessible-symbols position `i` when local and `prev` otherwise (lines
223-227), and `prev` becomes the index of the entry just pushed (line 230). -/
def threadLoop (symDepth i : Nat) : Nat → Nat → Nat → List (List ResolvedUpValue) →
    List (List ResolvedUpValue)
  | 0, _, _, upvs => upvs
  | count + 1, sd, prev, upvs =>
    let isl : Bool := sd == symDepth + 1
    let entry : ResolvedUpValue :=
      { is_local := isl, index := if isl then (i : Int) else (prev : Int) }
    let upvs2 := upvs.set sd (upvs.getD sd [] ++ [entry])
    threadLoop symDepth i count (sd + 1) ((upvs2.getD sd []).length - 1) upvs2

/-- Mirrors `Resolver::resolve_symbol` (resolve.rs lines 195-245).  Returns the
updated resolver and `some (offset, symbol arena id)` on success (`offset` is
the `usize` result, as an `Int` so that the local branch's
`i - current_func_offset` keeps its arithmetic meaning), `none` on failure
(with the diagnostic appended to the sink). -/
def Resolver.resolve_symbol (rs : Resolver) (ident : String) (span : Nat × Nat) :
    Resolver × Option (Int × Nat) :=
  match scanAccessible rs.symbols ident rs.accessible_symbols with
  | some (i, sid) =>
    let sym := rs.getSym sid
    if rs.find_function_scope_depth sym.scope_depth == 0 then
      -- line 202-203: global symbol, offset = position in accessible_symbols
      (rs, some ((i : Int), sid))
    else if rs.in_same_function_scope sym.scope_depth rs.topDepth then
      -- line 204-208: local symbol, offset = position - current_func_offset
      (rs, some ((i : Int) - rs.current_func_offset, sid))
    else
      -- lines 209-236: capture outer variable
      let rs1 := rs.setSym sid { sym with is_captured := true }
      let lo := rs1.find_function_scope_depth sym.scope_depth + 1
      let hi := rs1.find_function_scope_depth rs1.topDepth
      let upvs := threadLoop sym.scope_depth i (hi + 1 - lo) lo 0 rs1.function_upvalues
      let rs2 := { rs1 with function_upvalues := upvs }
      (rs2, some ((((upvs.getLastD []).length - 1 : Nat) : Int), sid))
  | none =>
    ({ rs with errors := rs.errors ++ [unresolvedDiag ident span] }, none)

/-- Mirrors `Resolver::resolve_builtin_vars` (lines 260-264). -/
def Resolver.resolve_builtin_vars (rs : Resolver) (builtins : List String) : Resolver :=
  builtins.foldl (fun acc ident => acc.add_symbol ident none) rs

/-- Modelled from the spec: the binary operator token (`ella_parser::lexer::Token`
is not under src/).  resolve.rs only distinguishes the assignment operator
`Token::Equals` from every other operator. -/
inductive BinOp where
  | equals
  | plus
  | otherOp
deriving DecidableEq

mutual
/-- Modelled from the spec: the parser's AST (`ella_parser::ast`, not under
src/).  Node kinds are the ones resolve.rs matches on plus the number literal
and function call the spec's example programs need; the stable node identity
(the Rust node address used as table key) is an explicit `Nat` id, and each
node carries its source span. -/
inductive Expr where
  | mk : Nat → Nat × Nat → ExprKind → Expr

/-- Modelled from the spec: expression kinds (identifier, literal, binary,
function call, lambda carrying its synthesized inner statement, parameters and
body). -/
inductive ExprKind where
  | identifier : String → ExprKind
  | numberLit : Int → ExprKind
  | binary : Expr → BinOp → Expr → ExprKind
  | fnCall : Expr → List Expr → ExprKind
  | lambda : Stmt → List Stmt → List Stmt → ExprKind

/-- Modelled from the spec: statement node with id, span and kind. -/
inductive Stmt where
  | mk : Nat → Nat × Nat → StmtKind → Stmt

/-- Modelled from the spec: the statement kinds resolve.rs matches on
(resolve.rs lines 354-441). -/
inductive StmtKind where
  | letDeclaration : String → Expr → StmtKind
  | fnParam : String → StmtKind
  | fnDeclaration : String → List Stmt → List Stmt → StmtKind
  | blockStmt : List Stmt → StmtKind
  | ifElseStmt : Expr → List Stmt → Option (List Stmt) → StmtKind
  | whileStmt : Expr → List Stmt → StmtKind
  | exprStmt : Expr → StmtKind
  | returnStmt : Expr → StmtKind
  | lambdaMarker : StmtKind
  | errorStmt : StmtKind
end

def Expr.nodeId : Expr → Nat
  | .mk i _ _ => i

def Expr.span : Expr → Nat × Nat
  | .mk _ s _ => s

def Expr.kind : Expr → ExprKind
  | .mk _ _ k => k

def Stmt.nodeId : Stmt → Nat
  | .mk i _ _ => i

def Stmt.span : Stmt → Nat × Nat
  | .mk _ s _ => s

def Stmt.kind : Stmt → StmtKind
  | .mk _ _ k => k

/-- The tree walk of `impl Visitor for Resolver` (resolve.rs lines 267-443):
`visit_expr` and `visit_stmt` combined into one function, structurally
recursive on a fuel argument so that concrete runs reduce inside the kernel
(fuel `0`, never reached on the programs considered, returns the state
unchanged).  The generic `walk_expr` of `ella_parser::visitor` (not under
src/) is inlined per expression kind, modelled from the spec: it visits every
child expression in source order, and resolve.rs bypasses it for lambdas
(lines 269-273). -/
def visitF : Nat → Resolver → Expr ⊕ Stmt → Resolver
  | 0, rs, _ => rs
  | n + 1, rs, Sum.inl e =>
    match e.kind with
    | .identifier ident =>
      -- resolve.rs lines 276-293
      let pr := rs.resolve_symbol ident e.span
      match pr.2 with
      | some (offset, sid) =>
        let rs1 := pr.1
        let entry : ResolvedSymbol :=
          { offset := offset,
            is_global := rs1.find_function_scope_depth (rs1.getSym sid).scope_depth == 0,
            is_upvalue := decide (rs1.find_function_scope_depth (rs1.getSym sid).scope_depth <
              rs1.find_function_scope_depth rs1.topDepth),
            symbol := sid }
        { rs1 with resolved_symbol_table := (e.nodeId, entry) :: rs1.resolved_symbol_table }
      | none => pr.1
    | .numberLit _ => rs
    | .binary lhs op rhs =>
      -- walk_expr visits lhs then rhs, then lines 294-307 check the target
      let rs1 := visitF n rs (Sum.inl lhs)
      let rs2 := visitF n rs1 (Sum.inl rhs)
      match op with
      | .equals =>
        match lhs.kind with
        | .identifier _ => rs2
        | _ => { rs2 with errors := rs2.errors ++ [invalidAssignDiag lhs.span] }
      | _ => rs2
    | .fnCall callee args =>
      -- walk_expr visits the callee and then each argument; no kind action
      let rs1 := visitF n rs (Sum.inl callee)
      args.foldl (fun acc a => visitF n acc (Sum.inl a)) rs1
    | .lambda inner_stmt params body =>
      -- resolve.rs lines 308-346
      let old := rs.current_func_offset
      let rs1 := { rs with
        current_func_offset := (rs.accessible_symbols.length : Int),
        function_upvalues := rs.function_upvalues ++ [[]],
        function_scope_depths := rs.function_scope_depths ++ [rs.topDepth] }
      let rs2 := rs1.enter_scope
      let rs3 := params.foldl (fun acc p => visitF n acc (Sum.inr p)) rs2
      let rs4 := body.foldl (fun acc b => visitF n acc (Sum.inr b)) rs3
      let rs5 := rs4.exit_scope
      -- line 333: pop the scope-depth stack, then insert the lambda's Symbol
      -- keyed to the synthesized inner statement, upvalue list attached
      let rs6 := { rs5 with function_scope_depths := rs5.function_scope_depths.dropLast }
      let sym : Symbol :=
        { ident := "lambda", is_captured := false,
          scope_depth := rs6.topDepth,
          upvalues := rs6.function_upvalues.getLastD [],
          stmt := some inner_stmt.nodeId }
      let sid := rs6.symbols.length
      let rs7 := { rs6 with
        symbols := rs6.symbols ++ [sym],
        symbol_table := (inner_stmt.nodeId, sid) :: rs6.symbol_table,
        function_upvalues := rs6.function_upvalues.dropLast }
      { rs7 with current_func_offset := old }
  | n + 1, rs, Sum.inr s =>
    match s.kind with
    | .letDeclaration ident initializer =>
      -- resolve.rs lines 355-362: initializer first, then declare
      let rs1 := visitF n rs (Sum.inl initializer)
      rs1.add_symbol ident (some s.nodeId)
    | .fnParam ident =>
      -- resolve.rs lines 363-367
      rs.add_symbol ident (some s.nodeId)
    | .fnDeclaration ident params body =>
      -- resolve.rs lines 368-402: symbol added first to allow recursion
      let rs1 := rs.add_symbol ident (some s.nodeId)
      let old := rs1.current_func_offset
      let rs2 := { rs1 with
        current_func_offset := (rs1.accessible_symbols.length : Int),
        function_upvalues := rs1.function_upvalues ++ [[]],
        function_scope_depths := rs1.function_scope_depths ++ [rs1.topDepth] }
      let rs3 := rs2.enter_scope
      let rs4 := params.foldl (fun acc p => visitF n acc (Sum.inr p)) rs3
      let rs5 := body.foldl (fun acc b => visitF n acc (Sum.inr b)) rs4
      let rs6 := rs5.exit_scope
      -- lines 393-398: patch the declaration's Symbol with the upvalue list
      let sid := (lookupTable rs6.symbol_table s.nodeId).getD 0
      let rs7 := rs6.setSym sid
        { rs6.getSym sid with upvalues := rs6.function_upvalues.getLastD [] }
      let rs8 := { rs7 with
        function_upvalues := rs7.function_upvalues.dropLast,
        function_scope_depths := rs7.function_scope_depths.dropLast }
      { rs8 with current_func_offset := old }
    | .blockStmt body =>
      -- resolve.rs lines 403-409
      let rs1 := rs.enter_scope
      let rs2 := body.foldl (fun acc b => visitF n acc (Sum.inr b)) rs1
      rs2.exit_scope
    | .ifElseStmt condition if_block else_block =>
      -- resolve.rs lines 410-428
      let rs1 := visitF n rs (Sum.inl condition)
      let rs2 := rs1.enter_scope
      let rs3 := if_block.foldl (fun acc b => visitF n acc (Sum.inr b)) rs2
      let rs4 := rs3.exit_scope
      match else_block with
      | some els =>
        let rs5 := rs4.enter_scope
        let rs6 := els.foldl (fun acc b => visitF n acc (Sum.inr b)) rs5
        rs6.exit_scope
      | none => rs4
    | .whileStmt condition body =>
      -- resolve.rs lines 429-436
      let rs1 := visitF n rs (Sum.inl condition)
      let rs2 := rs1.enter_scope
      let rs3 := body.foldl (fun acc b => visitF n acc (Sum.inr b)) rs2
      rs3.exit_scope
    | .exprStmt e => visitF n rs (Sum.inl e)
    | .returnStmt e => visitF n rs (Sum.inl e)
    -- StmtKind::Lambda is unreachable in the source (panic); never visited
    | .lambdaMarker => rs
    | .errorStmt => rs

/-- `Resolver::visit_expr` at a given fuel. -/
def visit_expr (n : Nat) (rs : Resolver) (e : Expr) : Resolver :=
  visitF n rs (Sum.inl e)

/-- `Resolver::visit_stmt` at a given fuel. -/
def visit_stmt (n : Nat) (rs : Resolver) (s : Stmt) : Resolver :=
  visitF n rs (Sum.inr s)

/-- Mirrors `Resolver::resolve_top_level` (resolve.rs lines 248-257): the body
of the top-level synthetic function declaration is visited directly.  On any
other statement kind the source panics; that branch returns the state
unchanged here and is never exercised. -/
def resolve_top_level (n : Nat) (rs : Resolver) (func : Stmt) : Resolver :=
  match func.kind with
  | .fnDeclaration _ _ body => body.foldl (fun acc b => visitF n acc (Sum.inr b)) rs
  | _ => rs

/-! ## Concrete programs used by the claims -/

/-- `fn outer(x) { x; fn inner() { return x; } }` wrapped in the synthetic
top-level function.  The direct use of `x` inside `outer` (expression id 4)
pins down `x`'s local stack slot in `outer`; the use inside `inner` is
expression id 7. -/
def progSingleHop : Stmt :=
  .mk 0 (0, 70) (.fnDeclaration "[top]" []
    [.mk 1 (0, 70) (.fnDeclaration "outer"
      [.mk 2 (9, 10) (.fnParam "x")]
      [.mk 3 (14, 16) (.exprStmt (.mk 4 (14, 15) (.identifier "x"))),
       .mk 5 (18, 60) (.fnDeclaration "inner" []
         [.mk 6 (33, 42) (.returnStmt (.mk 7 (40, 41) (.identifier "x")))])])])

def runSingleHop : Resolver := resolve_top_level 32 .new progSingleHop

/-- `fn a() { { let x = 1; fn b() { fn c() { return x; } } } }`: the captured
variable is declared inside a block of `a`, so its block-scope depth (2) is
not its function-nesting level (1).  Statement ids: `a` = 1, block = 2,
`let x` = 3, `fn b` = 5, `fn c` = 6; the captured use of `x` is expression
id 8. -/
def progBlockCapture : Stmt :=
  .mk 0 (0, 90) (.fnDeclaration "[top]" []
    [.mk 1 (0, 90) (.fnDeclaration "a" []
      [.mk 2 (9, 88) (.blockStmt
        [.mk 3 (11, 21) (.letDeclaration "x" (.mk 4 (19, 20) (.numberLit 1))),
         .mk 5 (23, 86) (.fnDeclaration "b" []
           [.mk 6 (32, 84) (.fnDeclaration "c" []
             [.mk 7 (41, 50) (.returnStmt (.mk 8 (48, 49) (.identifier "x")))])])])])])

def runBlockCapture : Resolver := resolve_top_level 32 .new progBlockCapture

/-- `fn a(x) { fn b() { fn c() { return x; } } }`: the plain multi-hop capture
of the spec, with no intervening block scopes.  Statement ids: `a` = 1,
param `x` = 2, `fn b` = 3, `fn c` = 4; the captured use of `x` is expression
id 6. -/
def progMultiHop : Stmt :=
  .mk 0 (0, 80) (.fnDeclaration "[top]" []
    [.mk 1 (0, 80) (.fnDeclaration "a"
      [.mk 2 (5, 6) (.fnParam "x")]
      [.mk 3 (10, 78) (.fnDeclaration "b" []
        [.mk 4 (19, 76) (.fnDeclaration "c" []
          [.mk 5 (28, 37) (.returnStmt (.mk 6 (35, 36) (.identifier "x")))])])])])

def runMultiHop : Resolver := resolve_top_level 32 .new progMultiHop

/-- `let x = 1; { let x = 2; x; }`: the shadowing program.  The outer `let` is
statement id 1, the inner `let` is statement id 4, the use is expression
id 7. -/
def progShadow : Stmt :=
  .mk 0 (0, 40) (.fnDeclaration "[top]" []
    [.mk 1 (0, 10) (.letDeclaration "x" (.mk 2 (8, 9) (.numberLit 1))),
     .mk 3 (11, 40) (.blockStmt
       [.mk 4 (13, 23) (.letDeclaration "x" (.mk 5 (21, 22) (.numberLit 2))),
        .mk 6 (25, 27) (.exprStmt (.mk 7 (25, 26) (.identifier "x")))])])

def runShadow : Resolver := resolve_top_level 32 .new progShadow

/-- REPL unit A: `let a = 1; let g = 2; g;` (use of `g` is expression id 6). -/
def progUnitA : Stmt :=
  .mk 0 (0, 30) (.fnDeclaration "[top]" []
    [.mk 1 (0, 10) (.letDeclaration "a" (.mk 2 (8, 9) (.numberLit 1))),
     .mk 3 (11, 21) (.letDeclaration "g" (.mk 4 (19, 20) (.numberLit 2))),
     .mk 5 (22, 24) (.exprStmt (.mk 6 (22, 23) (.identifier "g")))])

/-- REPL unit B, resolved with unit A's imported result: `g;` (use of `g` is
expression id 11). -/
def progUnitB : Stmt :=
  .mk 10 (0, 2) (.fnDeclaration "[top]" []
    [.mk 12 (0, 2) (.exprStmt (.mk 11 (0, 1) (.identifier "g")))])

def runUnitA : Resolver := resolve_top_level 32 .new progUnitA

def runUnitB : Resolver :=
  resolve_top_level 32
    (Resolver.new_with_existing_resolve_result runUnitA.into_resolve_result) progUnitB

/-- `undeclared; let x = 1; x;`: the unresolved-identifier program (use of
`undeclared` is expression id 2 with span (0, 10), later use of `x` is
expression id 6). -/
def progUnresolved : Stmt :=
  .mk 0 (0, 30) (.fnDeclaration "[top]" []
    [.mk 1 (0, 11) (.exprStmt (.mk 2 (0, 10) (.identifier "undeclared"))),
     .mk 3 (12, 22) (.letDeclaration "x" (.mk 4 (20, 21) (.numberLit 1))),
     .mk 5 (23, 25) (.exprStmt (.mk 6 (23, 24) (.identifier "x")))])

def runUnresolved : Resolver := resolve_top_level 32 .new progUnresolved

/-- `1 = 2; let y = 3; y;`: the invalid-assignment program (the left operand
`1` is expression id 3 with span (0, 1), later use of `y` is expression
id 8). -/
def progBadAssign : Stmt :=
  .mk 0 (0, 30) (.fnDeclaration "[top]" []
    [.mk 1 (0, 6) (.exprStmt (.mk 2 (0, 5)
      (.binary (.mk 3 (0, 1) (.numberLit 1)) .equals (.mk 4 (4, 5) (.numberLit 2))))),
     .mk 5 (7, 17) (.letDeclaration "y" (.mk 6 (15, 16) (.numberLit 3))),
     .mk 7 (18, 20) (.exprStmt (.mk 8 (18, 19) (.identifier "y")))])

def runBadAssign : Resolver := resolve_top_level 32 .new progBadAssign

/-- `fn f(n) { return f(n); }`: the self-recursion program (the callee use of
`f` is expression id 5, the argument use of `n` is expression id 6). -/
def progRecursion : Stmt :=
  .mk 0 (0, 25) (.fnDeclaration "[top]" []
    [.mk 1 (0, 25) (.fnDeclaration "f"
      [.mk 2 (5, 6) (.fnParam "n")]
      [.mk 3 (10, 23) (.returnStmt (.mk 4 (17, 22)
        (.fnCall (.mk 5 (17, 18) (.identifier "f")) [.mk 6 (19, 20) (.identifier "n")])))])])

def runRecursion : Resolver := resolve_top_level 32 .new progRecursion

/-- `fn outer(y) { let h = fn() { return y; }; }`: a lambda capturing `y`.
The lambda expression is id 4; its synthesized inner statement node has
id 20. -/
def progLambda : Stmt :=
  .mk 0 (0, 45) (.fnDeclaration "[top]" []
    [.mk 1 (0, 45) (.fnDeclaration "outer"
      [.mk 2 (9, 10) (.fnParam "y")]
      [.mk 3 (14, 42) (.letDeclaration "h"
        (.mk 4 (22, 41) (.lambda (.mk 20 (22, 41) .lambdaMarker) []
          [.mk 5 (29, 38) (.returnStmt (.mk 6 (36, 37) (.identifier "y")))])))])])

def runLambda : Resolver := resolve_top_level 32 .new progLambda

/-- `let g = 1; fn f() { return g; }`: a global used from inside a function
(the use of `g` is expression id 5). -/
def progGlobalUse : Stmt :=
  .mk 0 (0, 35) (.fnDeclaration "[top]" []
    [.mk 1 (0, 10) (.letDeclaration "g" (.mk 2 (8, 9) (.numberLit 1))),
     .mk 3 (11, 34) (.fnDeclaration "f" []
       [.mk 4 (20, 29) (.returnStmt (.mk 5 (27, 28) (.identifier "g")))])])

def runGlobalUse : Resolver := resolve_top_level 32 .new progGlobalUse

/-- The entry the threading loop of resolve.rs lines 214-231 appends at level
`L`, when the loop started at level `sd` with initial `prev_upvalue_index`
`prev` and upvalue stack `upvs`: `is_local` exactly at level
`symbol.scope_depth + 1`, index `i` there, the chained previous-level index
elsewhere. -/
def threadEntry (symDepth i prev sd : Nat) (upvs : List (List ResolvedUpValue))
    (L : Nat) : ResolvedUpValue :=
  if L = symDepth + 1 then { is_local := true, index := (i : Int) }
  else { is_local := false,
         index := if L = sd then (prev : Int)
                  else ((upvs.getD (L - 1) []).length : Int) }

/-- The upvalue stack produced by the capture branch's threading loop
(resolve.rs lines 214-231) for a symbol found at accessible position `i` with
arena id `sid`. -/
def captureUpvs (rs : Resolver) (i sid : Nat) : List (List ResolvedUpValue) :=
  threadLoop (rs.getSym sid).scope_depth i
    (rs.find_function_scope_depth rs.topDepth + 1 -
      (rs.find_function_scope_depth (rs.getSym sid).scope_depth + 1))
    (rs.find_function_scope_depth (rs.getSym sid).scope_depth + 1) 0
    rs.function_upvalues

/-- The resolver state of `runMultiHop` at the moment the use of `x` inside
`c` is resolved: arena holds `a`, `x`, `b`, `c`; three nested function levels
are active. -/
def rsMidMultiHop : Resolver :=
  { symbols :=
      [{ ident := "a", scope_depth := 0, is_captured := false, upvalues := [], stmt := some 1 },
       { ident := "x", scope_depth := 1, is_captured := false, upvalues := [], stmt := some 2 },
       { ident := "b", scope_depth := 1, is_captured := false, upvalues := [], stmt := some 3 },
       { ident := "c", scope_depth := 2, is_captured := false, upvalues := [], stmt := some 4 }],
    symbol_table := [(4, 3), (3, 2), (2, 1), (1, 0)],
    resolved_symbol_table := [],
    accessible_symbols := [0, 1, 2, 3],
    function_scope_depths := [0, 1, 2, 3],
    current_func_offset := 4,
    function_upvalues := [[], [], [], []],
    errors := [] }

/-- The resolver state of `runSingleHop` at the moment the use of `x` inside
`inner` is resolved. -/
def rsMidSingleHop : Resolver :=
  { symbols :=
      [{ ident := "outer", scope_depth := 0, is_captured := false, upvalues := [], stmt := some 1 },
       { ident := "x", scope_depth := 1, is_captured := false, upvalues := [], stmt := some 2 },
       { ident := "inner", scope_depth := 1, is_captured := false, upvalues := [], stmt := some 5 }],
    symbol_table := [(5, 2), (2, 1), (1, 0)],
    resolved_symbol_table := [],
    accessible_symbols := [0, 1, 2],
    function_scope_depths := [0, 1, 2],
    current_func_offset := 3,
    function_upvalues := [[], [], []],
    errors := [] }

/-- A resolver state inside a function body with one global `g` and one local
`y` in scope. -/
def rsGlobLocal : Resolver :=
  { symbols :=
      [{ ident := "g", scope_depth := 0, is_captured := false, upvalues := [], stmt := some 1 },
       { ident := "y", scope_depth := 1, is_captured := false, upvalues := [], stmt := some 3 }],
    symbol_table := [(3, 1), (1, 0)],
    resolved_symbol_table := [],
    accessible_symbols := [0, 1],
    function_scope_depths := [0, 1],
    current_func_offset := 1,
    function_upvalues := [[], []],
    errors := [] }

/-- A resolver state at global scope holding two declarations both named `x`
(an outer one, arena id 0, and a more recent inner one, arena id 1). -/
def rsDupX : Resolver :=
  { symbols :=
      [{ ident := "x", scope_depth := 0, is_captured := false, upvalues := [], stmt := some 1 },
       { ident := "x", scope_depth := 0, is_captured := false, upvalues := [], stmt := some 4 }],
    symbol_table := [(4, 1), (1, 0)],
    resolved_symbol_table := [],
    accessible_symbols := [0, 1],
    function_scope_depths := [0],
    current_func_offset := 0,
    function_upvalues := [[]],
    errors := [] }

/-- The resolver state of `runGlobalUse` at the moment `g` is used inside
`f`: both `g` and `f` are global declarations, one function level is
active. -/
def rsMidGlobalUse : Resolver :=
  { symbols :=
      [{ ident := "g", scope_depth := 0, is_captured := false, upvalues := [], stmt := some 1 },
       { ident := "f", scope_depth := 0, is_captured := false, upvalues := [], stmt := some 3 }],
    symbol_table := [(3, 1), (1, 0)],
    resolved_symbol_table := [],
    accessible_symbols := [0, 1],
    function_scope_depths := [0, 1],
    current_func_offset := 2,
    function_upvalues := [[], []],
    errors := [] }

/-! ## Helper lemmas -/

lemma getD_set_self {α : Type} (l : List α) (n : Nat) (v d : α) (h : n < l.length) :
    (l.set n v).getD n d = v := by
  simp [List.getD_eq_getElem?_getD, List.getElem?_set_self h]

lemma getD_set_ne {α : Type} (l : List α) (n m : Nat) (v d : α) (h : n ≠ m) :
    (l.set n v).getD m d = l.getD m d := by
  simp [List.getD_eq_getElem?_getD, List.getElem?_set_ne h]

lemma getLastD_eq_getD {α : Type} (l : List α) (d : α) :
    l.getLastD d = l.getD (l.length - 1) d := by
  simp [List.getLastD_eq_getLast?, List.getLast?_eq_getElem?, List.getD_eq_getElem?_getD]

lemma topDepth_setTopDepth (rs : Resolver) (d : Nat) : (rs.setTopDepth d).topDepth = d := by
  simp [Resolver.setTopDepth, Resolver.topDepth, List.getLastD_concat]

/-- The reverse scan finds no match exactly when no accessible symbol's
identifier matches. -/
lemma scanAccessible_none (symbols : List Symbol) (ident : String) :
    ∀ l : List Nat, scanAccessible symbols ident l = none →
      ∀ j, j < l.length → (symbols.getD (l.getD j 0) default).ident ≠ ident := by
  intro l
  induction l with
  | nil => intro _ j hj; simp at hj
  | cons sid rest ih =>
    intro hscan j hj
    simp only [scanAccessible] at hscan
    cases hrest : scanAccessible symbols ident rest with
    | some p => rw [hrest] at hscan; obtain ⟨a, b⟩ := p; simp at hscan
    | none =>
      rw [hrest] at hscan
      have hid : ¬(symbols.getD sid default).ident = ident := by
        by_cases h : ((symbols.getD sid default).ident == ident) = true
        · rw [if_pos h] at hscan; simp at hscan
        · simpa using h
      cases j with
      | zero => simpa [List.getD_cons_zero] using hid
      | succ j' => simpa [List.getD_cons_succ] using ih hrest j' (by simpa using hj)

/-- The reverse scan returns the last (most recently declared) matching
symbol: the returned index holds the returned symbol, that symbol matches,
and every later position does not match. -/
lemma scanAccessible_some (symbols : List Symbol) (ident : String) :
    ∀ (l : List Nat) (i sid : Nat), scanAccessible symbols ident l = some (i, sid) →
      i < l.length ∧ l.getD i 0 = sid ∧ (symbols.getD sid default).ident = ident ∧
      ∀ j, i < j → j < l.length → (symbols.getD (l.getD j 0) default).ident ≠ ident := by
  intro l
  induction l with
  | nil => intro i sid h; simp [scanAccessible] at h
  | cons sid0 rest ih =>
    intro i sid hscan
    simp only [scanAccessible] at hscan
    cases hrest : scanAccessible symbols ident rest with
    | some p =>
      rw [hrest] at hscan
      obtain ⟨i', s'⟩ := p
      simp only [Option.some.injEq, Prod.mk.injEq] at hscan
      obtain ⟨hi, hs⟩ := hscan
      obtain ⟨h1, h2, h3, h4⟩ := ih i' s' hrest
      subst hi hs
      refine ⟨by simpa using h1, by simpa [List.getD_cons_succ] using h2, h3, ?_⟩
      intro j hj hjl
      cases j with
      | zero => omega
      | succ j' =>
        simpa [List.getD_cons_succ] using h4 j' (by omega) (by simpa using hjl)
    | none =>
      rw [hrest] at hscan
      by_cases hid : ((symbols.getD sid0 default).ident == ident) = true
      · rw [if_pos hid] at hscan
        simp only [Option.some.injEq, Prod.mk.injEq] at hscan
        obtain ⟨hi, hs⟩ := hscan
        subst hs
        subst hi
        refine ⟨by simp, by simp [List.getD_cons_zero], by simpa using hid, ?_⟩
        intro j hj hjl
        cases j with
        | zero => omega
        | succ j' =>
          simpa [List.getD_cons_succ] using
            scanAccessible_none symbols ident rest hrest j' (by simpa using hjl)
      · rw [if_neg hid] at hscan; simp at hscan

/-- Full characterisation of the upvalue-threading loop: it appends exactly
one entry (described by `threadEntry`) to each of the `count` levels starting
at `sd`, leaves every other level untouched, and preserves the stack length. -/
lemma threadLoop_spec (symDepth i : Nat) :
    ∀ (count sd prev : Nat) (upvs : List (List ResolvedUpValue)),
      sd + count ≤ upvs.length →
      (threadLoop symDepth i count sd prev upvs).length = upvs.length ∧
      (∀ L, (L < sd ∨ sd + count ≤ L) →
        (threadLoop symDepth i count sd prev upvs).getD L [] = upvs.getD L []) ∧
      (∀ L, sd ≤ L → L < sd + count →
        (threadLoop symDepth i count sd prev upvs).getD L [] =
          upvs.getD L [] ++ [threadEntry symDepth i prev sd upvs L]) := by
  intro count
  induction count with
  | zero =>
    intro sd prev upvs _
    refine ⟨rfl, fun L _ => rfl, fun L h1 h2 => by omega⟩
  | succ c ih =>
    intro sd prev upvs hlen
    have hsd : sd < upvs.length := by omega
    simp only [threadLoop]
    set entry : ResolvedUpValue :=
      { is_local := sd == symDepth + 1,
        index := if (sd == symDepth + 1) then (i : Int) else (prev : Int) } with hentry
    set upvs2 := upvs.set sd (upvs.getD sd [] ++ [entry]) with hupvs2
    have hlen2 : upvs2.length = upvs.length := by simp [hupvs2, List.length_set]
    have hget_sd : upvs2.getD sd [] = upvs.getD sd [] ++ [entry] :=
      getD_set_self _ _ _ _ hsd
    have hget_ne : ∀ m, m ≠ sd → upvs2.getD m [] = upvs.getD m [] := by
      intro m hm
      exact getD_set_ne _ _ _ _ _ (fun h => hm h.symm)
    have hprev' : (upvs2.getD sd []).length - 1 = (upvs.getD sd []).length := by
      rw [hget_sd]; simp
    obtain ⟨ih1, ih2, ih3⟩ := ih (sd + 1) ((upvs2.getD sd []).length - 1) upvs2
      (by omega)
    refine ⟨by rw [ih1, hlen2], ?_, ?_⟩
    · intro L hL
      have : (threadLoop symDepth i c (sd + 1) ((upvs2.getD sd []).length - 1) upvs2).getD L []
          = upvs2.getD L [] := ih2 L (by omega)
      rw [this, hget_ne L (by omega)]
    · intro L hL1 hL2
      rcases Nat.eq_or_lt_of_le hL1 with hL | hL
      · -- L = sd: the entry pushed in this iteration
        subst hL
        have : (threadLoop symDepth i c (sd + 1) ((upvs2.getD sd []).length - 1) upvs2).getD sd []
            = upvs2.getD sd [] := ih2 sd (by omega)
        rw [this, hget_sd]
        congr 1
        simp only [threadEntry, hentry]
        by_cases hloc : sd = symDepth + 1
        · simp [hloc]
        · have : (sd == symDepth + 1) = false := by simpa using hloc
          simp [hloc, this]
      · -- L > sd: handled by the recursive call
        have hrec : (threadLoop symDepth i c (sd + 1) ((upvs2.getD sd []).length - 1) upvs2).getD L []
            = upvs2.getD L [] ++
              [threadEntry symDepth i ((upvs2.getD sd []).length - 1) (sd + 1) upvs2 L] :=
          ih3 L (by omega) (by omega)
        rw [hrec, hget_ne L (by omega)]
        congr 2
        simp only [threadEntry]
        by_cases hloc : L = symDepth + 1
        · simp [hloc]
        · rw [if_neg hloc, if_neg hloc]
          by_cases hLsd : L = sd + 1
          · subst hLsd
            rw [if_pos rfl, if_neg (by omega : ¬sd + 1 = sd), hprev', Nat.add_sub_cancel]
          · have h1 : ¬L = sd := by omega
            rw [if_neg hLsd, if_neg h1, hget_ne (L - 1) (by omega)]

/-! ### Branch unfoldings of `resolve_symbol` -/

/-- No-match branch (resolve.rs lines 240-244): exactly one diagnostic is
appended, every other component of the state is untouched, and `none` is
returned. -/
lemma resolve_symbol_none (rs : Resolver) (ident : String) (span : Nat × Nat)
    (hscan : scanAccessible rs.symbols ident rs.accessible_symbols = none) :
    rs.resolve_symbol ident span =
      ({ rs with errors := rs.errors ++ [unresolvedDiag ident span] }, none) := by
  simp only [Resolver.resolve_symbol, hscan]

/-- Global branch (resolve.rs lines 202-203). -/
lemma resolve_symbol_global (rs : Resolver) (ident : String) (span : Nat × Nat)
    (i sid : Nat)
    (hscan : scanAccessible rs.symbols ident rs.accessible_symbols = some (i, sid))
    (hglob : rs.find_function_scope_depth (rs.getSym sid).scope_depth = 0) :
    rs.resolve_symbol ident span = (rs, some ((i : Int), sid)) := by
  simp only [Resolver.resolve_symbol, hscan]
  rw [if_pos (by simpa using hglob)]

/-- Local branch (resolve.rs lines 204-208). -/
lemma resolve_symbol_local (rs : Resolver) (ident : String) (span : Nat × Nat)
    (i sid : Nat)
    (hscan : scanAccessible rs.symbols ident rs.accessible_symbols = some (i, sid))
    (hglob : rs.find_function_scope_depth (rs.getSym sid).scope_depth ≠ 0)
    (hsame : rs.in_same_function_scope (rs.getSym sid).scope_depth rs.topDepth = true) :
    rs.resolve_symbol ident span =
      (rs, some ((i : Int) - rs.current_func_offset, sid)) := by
  simp only [Resolver.resolve_symbol, hscan]
  rw [if_neg (by simpa using hglob), if_pos hsame]

/-- Capture branch (resolve.rs lines 209-236), with the loop bounds expressed
over the pre-capture state (the captured-flag write does not change the
scope-depth stack). -/
lemma resolve_symbol_capture (rs : Resolver) (ident : String) (span : Nat × Nat)
    (i sid : Nat)
    (hscan : scanAccessible rs.symbols ident rs.accessible_symbols = some (i, sid))
    (hglob : rs.find_function_scope_depth (rs.getSym sid).scope_depth ≠ 0)
    (hsame : rs.in_same_function_scope (rs.getSym sid).scope_depth rs.topDepth = false) :
    rs.resolve_symbol ident span =
      ({ rs.setSym sid { rs.getSym sid with is_captured := true } with
           function_upvalues := captureUpvs rs i sid },
       some (((((captureUpvs rs i sid).getLastD []).length - 1 : Nat) : Int), sid)) := by
  simp only [Resolver.resolve_symbol, hscan]
  rw [if_neg (by simpa using hglob), if_neg (by simp [hsame])]
  rfl

/-! ## Claim theorems -/

/-- C1 (counterexample): in
`fn a() { { let x = 1; fn b() { fn c() { return x; } } } }` the variable `x`
is declared at function-nesting level 1 (inside `a`), so the level immediately
enclosing the declaration is `b`'s (arena id 2).  The claim requires `b`'s
entry to be `is_local = true`; instead the code gives `b` an
`is_local = false` entry and gives the deeper level `c` (arena id 3) the
`is_local = true` entry, because line 220 compares the loop level against the
symbol's block-scope depth (2) plus one rather than against its
function-nesting level plus one. -/
theorem c1_counterexample :
    (runBlockCapture.getSym 2).ident = "b" ∧
    (runBlockCapture.getSym 2).upvalues = [{ is_local := false, index := 0 }] ∧
    (runBlockCapture.getSym 3).ident = "c" ∧
    (runBlockCapture.getSym 3).upvalues = [{ is_local := true, index := 1 }] ∧
    (runBlockCapture.getSym 1).ident = "x" ∧
    (runBlockCapture.getSym 1).is_captured = true := by decide

/-- C1 (amended): for an identifier use resolving to a symbol in a strictly
enclosing function across two or more nesting boundaries, `resolve_symbol`
sets the captured flag and appends exactly one `ResolvedUpValue` to every
level from the declaring level plus one up to the current level, leaving all
other levels untouched, and the returned offset is the index of the entry
appended at the current level; **provided the symbol's block-scope depth
equals its function-nesting level** (no intervening block scope), the
`is_local = true` entry lands exactly at the level immediately enclosing the
declaration and every deeper level's entry is `is_local = false` with index
equal to the previous level's freshly appended upvalue-list index. -/
theorem c1_upvalue_threading_amended
    (rs : Resolver) (ident : String) (span : Nat × Nat)
    (i sid symLevel curLevel : Nat)
    (hscan : scanAccessible rs.symbols ident rs.accessible_symbols = some (i, sid))
    (hsym : symLevel = rs.find_function_scope_depth (rs.getSym sid).scope_depth)
    (hcur : curLevel = rs.find_function_scope_depth rs.topDepth)
    (hglob : symLevel ≠ 0)
    (hhops : symLevel + 2 ≤ curLevel)
    (hdepth : (rs.getSym sid).scope_depth = symLevel)
    (hlen : curLevel = rs.function_upvalues.length - 1)
    (hne : rs.function_upvalues ≠ [])
    (hsid : sid < rs.symbols.length) :
    ((rs.resolve_symbol ident span).1.getSym sid).is_captured = true ∧
    (∀ L, symLevel + 1 ≤ L → L ≤ curLevel →
      (rs.resolve_symbol ident span).1.function_upvalues.getD L [] =
        rs.function_upvalues.getD L [] ++
          [if L = symLevel + 1 then { is_local := true, index := (i : Int) }
           else { is_local := false,
                  index := ((rs.function_upvalues.getD (L - 1) []).length : Int) }]) ∧
    (∀ L, L < symLevel + 1 ∨ curLevel < L →
      (rs.resolve_symbol ident span).1.function_upvalues.getD L [] =
        rs.function_upvalues.getD L []) ∧
    (rs.resolve_symbol ident span).2 =
      some (((rs.function_upvalues.getD curLevel []).length : Int), sid) := by
  have hlenpos : 0 < rs.function_upvalues.length := List.length_pos.mpr hne
  have hlen' : rs.function_upvalues.length = curLevel + 1 := by omega
  have hres := resolve_symbol_capture rs ident span i sid hscan
    (by rw [← hsym]; exact hglob)
    (by
      have hne2 : symLevel ≠ curLevel := by omega
      simp only [Resolver.in_same_function_scope, ← hsym, ← hcur]
      simpa using hne2)
  have hsymL : rs.find_function_scope_depth symLevel = symLevel := by
    have h := hsym
    rw [hdepth] at h
    exact h.symm
  have hcap : captureUpvs rs i sid =
      threadLoop symLevel i (curLevel - symLevel) (symLevel + 1) 0 rs.function_upvalues := by
    simp only [captureUpvs, ← hcur, hdepth, hsymL]
    rw [show curLevel + 1 - (symLevel + 1) = curLevel - symLevel from by omega]
  obtain ⟨hlen1, huntouched, htouched⟩ :=
    threadLoop_spec symLevel i (curLevel - symLevel) (symLevel + 1) 0
      rs.function_upvalues (by omega)
  refine ⟨?_, ?_, ?_, ?_⟩
  · simp only [hres, Resolver.getSym, Resolver.setSym]
    rw [getD_set_self _ _ _ _ hsid]
  · intro L h1 h2
    simp only [hres, hcap]
    rw [htouched L (by omega) (by omega)]
    congr 1
    by_cases hL : L = symLevel + 1
    · simp [threadEntry, hL]
    · simp [threadEntry, hL]
  · intro L hL
    simp only [hres, hcap]
    exact huntouched L (by omega)
  · simp only [hres, hcap]
    rw [getLastD_eq_getD, hlen1, hlen',
      show curLevel + 1 - 1 = curLevel from rfl,
      htouched curLevel (by omega) (by omega)]
    simp

/-- C1 (amended, witness): the amended theorem applied to the resolver state
reached by `runMultiHop` at the capture of `x` inside `c`: level `b` (= 2)
receives `is_local = true` with index 1, level `c` (= 3) receives
`is_local = false` chained to index 0, the returned offset is 0, and `x` is
marked captured. -/
theorem c1_upvalue_threading_amended_witness :
    ((rsMidMultiHop.resolve_symbol "x" (35, 36)).1.getSym 1).is_captured = true ∧
    (rsMidMultiHop.resolve_symbol "x" (35, 36)).1.function_upvalues.getD 2 [] =
      [{ is_local := true, index := 1 }] ∧
    (rsMidMultiHop.resolve_symbol "x" (35, 36)).1.function_upvalues.getD 3 [] =
      [{ is_local := false, index := 0 }] ∧
    (rsMidMultiHop.resolve_symbol "x" (35, 36)).2 = some (0, 1) := by
  obtain ⟨h1, h2, h3, h4⟩ := c1_upvalue_threading_amended rsMidMultiHop "x" (35, 36)
    1 1 1 3 (by decide) (by decide) (by decide) (by decide) (by decide) (by decide)
    (by decide) (by decide) (by decide)
  refine ⟨h1, ?_, ?_, ?_⟩
  · have := h2 2 (by omega) (by omega)
    simpa [rsMidMultiHop] using this
  · have := h2 3 (by omega) (by omega)
    simpa [rsMidMultiHop] using this
  · simpa [rsMidMultiHop] using h4

/-- C2 (counterexample): in `fn outer(x) { x; fn inner() { return x; } }`
the direct use of `x` inside `outer` resolves to local slot 0 (`x`'s local
stack-slot offset in `outer`), but the single `is_local = true` upvalue entry
recorded for `inner` carries index 1 — the absolute position of `x` in
`accessible_symbols` (line 224 stores the raw scan index `i`), not the
frame-relative local slot the claim requires. -/
theorem c2_counterexample :
    lookupTable runSingleHop.resolved_symbol_table 4 =
      some { offset := 0, is_global := false, is_upvalue := false, symbol := 1 } ∧
    (runSingleHop.getSym 2).ident = "inner" ∧
    (runSingleHop.getSym 2).upvalues = [{ is_local := true, index := 1 }] ∧
    (1 : Int) ≠ (0 : Int) := by decide

/-- C2 (amended): the `is_local = true` (direct-capture) entry of an upvalue
chain carries the captured variable's *absolute* positional index in
`accessible_symbols` (the scan index `i` of resolve.rs line 224) — this
equals the local stack-slot offset of the claim only when the enclosing
function's locals happen to begin at absolute position 0. -/
theorem c2_local_upvalue_index_amended
    (rs : Resolver) (ident : String) (span : Nat × Nat)
    (i sid symLevel curLevel : Nat)
    (hscan : scanAccessible rs.symbols ident rs.accessible_symbols = some (i, sid))
    (hsym : symLevel = rs.find_function_scope_depth (rs.getSym sid).scope_depth)
    (hcur : curLevel = rs.find_function_scope_depth rs.topDepth)
    (hglob : symLevel ≠ 0)
    (hhops : symLevel + 1 ≤ curLevel)
    (hdepth : (rs.getSym sid).scope_depth = symLevel)
    (hlen : curLevel = rs.function_upvalues.length - 1)
    (hne : rs.function_upvalues ≠ []) :
    rs.accessible_symbols.getD i 0 = sid ∧
    (rs.resolve_symbol ident span).1.function_upvalues.getD (symLevel + 1) [] =
      rs.function_upvalues.getD (symLevel + 1) [] ++
        [{ is_local := true, index := (i : Int) }] := by
  have hlenpos : 0 < rs.function_upvalues.length := List.length_pos.mpr hne
  have hlen' : rs.function_upvalues.length = curLevel + 1 := by omega
  have hres := resolve_symbol_capture rs ident span i sid hscan
    (by rw [← hsym]; exact hglob)
    (by
      have hne2 : symLevel ≠ curLevel := by omega
      simp only [Resolver.in_same_function_scope, ← hsym, ← hcur]
      simpa using hne2)
  have hsymL : rs.find_function_scope_depth symLevel = symLevel := by
    have h := hsym
    rw [hdepth] at h
    exact h.symm
  have hcap : captureUpvs rs i sid =
      threadLoop symLevel i (curLevel - symLevel) (symLevel + 1) 0 rs.function_upvalues := by
    simp only [captureUpvs, ← hcur, hdepth, hsymL]
    rw [show curLevel + 1 - (symLevel + 1) = curLevel - symLevel from by omega]
  obtain ⟨hlen1, huntouched, htouched⟩ :=
    threadLoop_spec symLevel i (curLevel - symLevel) (symLevel + 1) 0
      rs.function_upvalues (by omega)
  obtain ⟨hi, hgot, hident, hnolater⟩ :=
    scanAccessible_some rs.symbols ident rs.accessible_symbols i sid hscan
  refine ⟨hgot, ?_⟩
  simp only [hres, hcap]
  rw [htouched (symLevel + 1) (by omega) (by omega)]
  simp [threadEntry]

/-- C2 (amended, witness): the amended theorem applied to the resolver state
reached by `runSingleHop` at the capture of `x` inside `inner`: the direct
capture entry carries index 1, `x`'s absolute position in
`accessible_symbols`. -/
theorem c2_local_upvalue_index_amended_witness :
    rsMidSingleHop.accessible_symbols.getD 1 0 = 1 ∧
    (rsMidSingleHop.resolve_symbol "x" (40, 41)).1.function_upvalues.getD 2 [] =
      [{ is_local := true, index := 1 }] := by
  obtain ⟨h1, h2⟩ := c2_local_upvalue_index_amended rsMidSingleHop "x" (40, 41)
    1 1 1 2 (by decide) (by decide) (by decide) (by decide) (by decide) (by decide)
    (by decide) (by decide)
  exact ⟨h1, by simpa [rsMidSingleHop] using h2⟩

/-- Every successful resolution returns the symbol found by the reverse scan,
whatever branch produced the offset. -/
lemma resolve_symbol_sid (rs : Resolver) (ident : String) (span : Nat × Nat)
    (i sid : Nat)
    (hscan : scanAccessible rs.symbols ident rs.accessible_symbols = some (i, sid)) :
    ∃ rs' off, rs.resolve_symbol ident span = (rs', some (off, sid)) := by
  by_cases h1 : rs.find_function_scope_depth (rs.getSym sid).scope_depth = 0
  · exact ⟨rs, (i : Int), resolve_symbol_global rs ident span i sid hscan h1⟩
  · by_cases h2 : rs.in_same_function_scope (rs.getSym sid).scope_depth rs.topDepth = true
    · exact ⟨rs, _, resolve_symbol_local rs ident span i sid hscan h1 h2⟩
    · have h2f : rs.in_same_function_scope (rs.getSym sid).scope_depth rs.topDepth = false := by
        simpa using h2
      exact ⟨_, _, resolve_symbol_capture rs ident span i sid hscan h1 h2f⟩

/-- C3: when the matched symbol's function-nesting level is the global level
(0), `resolve_symbol` returns the symbol's positional index in
`accessible_symbols` as the offset with the state untouched; when the level
equals the current function's level, it returns that positional index minus
`current_func_offset`. -/
theorem c3_global_and_local_resolution
    (rs : Resolver) (ident : String) (span : Nat × Nat) (i sid : Nat)
    (hscan : scanAccessible rs.symbols ident rs.accessible_symbols = some (i, sid)) :
    (rs.find_function_scope_depth (rs.getSym sid).scope_depth = 0 →
      rs.resolve_symbol ident span = (rs, some ((i : Int), sid))) ∧
    (rs.find_function_scope_depth (rs.getSym sid).scope_depth ≠ 0 →
      rs.in_same_function_scope (rs.getSym sid).scope_depth rs.topDepth = true →
      rs.resolve_symbol ident span =
        (rs, some ((i : Int) - rs.current_func_offset, sid))) :=
  ⟨fun h => resolve_symbol_global rs ident span i sid hscan h,
   fun h1 h2 => resolve_symbol_local rs ident span i sid hscan h1 h2⟩

/-- C3 (witness): in a state with global `g` (position 0) and local `y`
(position 1, `current_func_offset` 1), `g` resolves to global offset 0 and
`y` to local offset 1 - 1 = 0. -/
theorem c3_global_and_local_resolution_witness :
    rsGlobLocal.resolve_symbol "g" (0, 1) = (rsGlobLocal, some (0, 0)) ∧
    rsGlobLocal.resolve_symbol "y" (2, 3) = (rsGlobLocal, some (0, 1)) := by
  constructor
  · exact (c3_global_and_local_resolution rsGlobLocal "g" (0, 1) 0 0 (by decide)).1 (by decide)
  · have h := (c3_global_and_local_resolution rsGlobLocal "y" (2, 3) 1 1
      (by decide)).2 (by decide) (by decide)
    rw [h]
    decide

/-- C4: the reverse scan of `accessible_symbols` returns the most recently
declared matching symbol (the matching symbol of greatest index; every later
position does not match), and `resolve_symbol` resolves to exactly that
symbol; concretely, in `let x = 1; { let x = 2; x; }` the use (expression 7)
resolves to the inner declaration's symbol (arena id 1, statement 4), not the
outer one (arena id 0, statement 1). -/
theorem c4_shadowing :
    (∀ (rs : Resolver) (ident : String) (span : Nat × Nat) (i sid : Nat),
      scanAccessible rs.symbols ident rs.accessible_symbols = some (i, sid) →
      (rs.accessible_symbols.getD i 0 = sid ∧
       (rs.getSym sid).ident = ident ∧
       (∀ j, i < j → j < rs.accessible_symbols.length →
         (rs.getSym (rs.accessible_symbols.getD j 0)).ident ≠ ident) ∧
       ∃ rs' off, rs.resolve_symbol ident span = (rs', some (off, sid)))) ∧
    lookupTable runShadow.symbol_table 1 = some 0 ∧
    lookupTable runShadow.symbol_table 4 = some 1 ∧
    (lookupTable runShadow.resolved_symbol_table 7).map ResolvedSymbol.symbol = some 1 := by
  refine ⟨?_, by decide, by decide, by decide⟩
  intro rs ident span i sid hscan
  obtain ⟨h1, h2, h3, h4⟩ :=
    scanAccessible_some rs.symbols ident rs.accessible_symbols i sid hscan
  exact ⟨h2, h3, h4, resolve_symbol_sid rs ident span i sid hscan⟩

/-- C4 (witness): with two accessible symbols both named `x`, the scan result
(position 1, arena id 1) is the more recent declaration and resolution
returns it. -/
theorem c4_shadowing_witness :
    rsDupX.accessible_symbols.getD 1 0 = 1 ∧
    (rsDupX.getSym 1).ident = "x" ∧
    (∃ rs' off, rsDupX.resolve_symbol "x" (0, 1) = (rs', some (off, 1))) := by
  obtain ⟨h1, h2, h3, h4⟩ := c4_shadowing.1 rsDupX "x" (0, 1) 1 1 (by decide)
  exact ⟨h1, h2, h4⟩

/-- C6: unit A declares globals `a` and `g` and uses `g` (offset 1); its
`ResolveResult` is exported and reimported through
`new_with_existing_resolve_result`, and unit B's use of `g` resolves to the
same offset 1, as a global, with no diagnostics. -/
theorem c6_global_offset_stability :
    (lookupTable runUnitA.resolved_symbol_table 6).map ResolvedSymbol.offset = some 1 ∧
    (lookupTable runUnitB.resolved_symbol_table 11).map ResolvedSymbol.offset = some 1 ∧
    (lookupTable runUnitB.resolved_symbol_table 11).map ResolvedSymbol.is_global =
      some true ∧
    runUnitA.errors = [] ∧ runUnitB.errors = [] := by decide

/-- C9: `fn f(n) { return f(n); }` resolves the inner use of `f` (expression
5) with no diagnostic because the declaration's symbol is added before the
body walk; a lambda's symbol is keyed to its synthesized inner statement node
(id 20) and carries its completed upvalue list (the captured `y`) when
inserted after the body walk. -/
theorem c9_self_recursion_and_lambda_keying :
    runRecursion.errors = [] ∧
    lookupTable runRecursion.resolved_symbol_table 5 =
      some { offset := 0, is_global := true, is_upvalue := true, symbol := 0 } ∧
    (runRecursion.getSym 0).ident = "f" ∧
    lookupTable runLambda.symbol_table 20 = some 2 ∧
    runLambda.getSym 2 =
      { ident := "lambda", scope_depth := 1, is_captured := false,
        upvalues := [{ is_local := true, index := 1 }], stmt := some 20 } ∧
    runLambda.errors = [] := by decide

/-- Prepending a binding never makes a `HashMap` lookup lose a key. -/
lemma lookupTable_cons_isSome {α : Type} (p : Nat × α) (t : List (Nat × α)) (k : Nat)
    (h : (lookupTable t k).isSome = true) :
    (lookupTable (p :: t) k).isSome = true := by
  simp only [lookupTable] at h ⊢
  by_cases hp : (p.1 == k) = true
  · rw [List.find?_cons_of_pos t hp]
    rfl
  · rw [List.find?_cons_of_neg t hp]
    exact h

/-- `resolve_symbol` never modifies the declaration table. -/
lemma te_resolve (rs : Resolver) (ident : String) (span : Nat × Nat) :
    (rs.resolve_symbol ident span).1.symbol_table = rs.symbol_table := by
  cases hscan : scanAccessible rs.symbols ident rs.accessible_symbols with
  | none => rw [resolve_symbol_none rs ident span hscan]
  | some p =>
    obtain ⟨i, sid⟩ := p
    by_cases h1 : rs.find_function_scope_depth (rs.getSym sid).scope_depth = 0
    · rw [resolve_symbol_global rs ident span i sid hscan h1]
    · by_cases h2 : rs.in_same_function_scope (rs.getSym sid).scope_depth rs.topDepth = true
      · rw [resolve_symbol_local rs ident span i sid hscan h1 h2]
      · rw [resolve_symbol_capture rs ident span i sid hscan h1 (by simpa using h2)]
        rfl

/-- A fold of table-monotone steps is table-monotone. -/
lemma foldl_table_mono {α : Type} (f : Resolver → α → Resolver)
    (hf : ∀ rs a k, (lookupTable rs.symbol_table k).isSome = true →
      (lookupTable (f rs a).symbol_table k).isSome = true) :
    ∀ (xs : List α) (rs : Resolver) (k : Nat),
      (lookupTable rs.symbol_table k).isSome = true →
      (lookupTable (xs.foldl f rs).symbol_table k).isSome = true := by
  intro xs
  induction xs with
  | nil => intro rs k h; exact h
  | cons x rest ih => intro rs k h; exact ih (f rs x) k (hf rs x k h)

/-- No step of the tree walk ever removes a key from the declaration table:
every key present before a visit is still present after it. -/
lemma visitF_table_mono :
    ∀ (n : Nat) (rs : Resolver) (t : Expr ⊕ Stmt) (k : Nat),
      (lookupTable rs.symbol_table k).isSome = true →
      (lookupTable (visitF n rs t).symbol_table k).isSome = true := by
  intro n
  induction n with
  | zero => intro rs t k h; exact h
  | succ n ih =>
    intro rs t k hk
    rcases t with e | s
    · obtain ⟨idn, span, kind⟩ := e
      cases kind with
      | identifier ident =>
        simp only [visitF, Expr.kind, Expr.span]
        cases hr : (rs.resolve_symbol ident span).2 with
        | none =>
          simp only [hr]
          show (lookupTable (rs.resolve_symbol ident span).1.symbol_table k).isSome = true
          rw [te_resolve rs ident span]
          exact hk
        | some v =>
          obtain ⟨off, sid⟩ := v
          simp only [hr]
          show (lookupTable (rs.resolve_symbol ident span).1.symbol_table k).isSome = true
          rw [te_resolve rs ident span]
          exact hk
      | numberLit m => exact hk
      | binary lhs op rhs =>
        obtain ⟨lidn, lspan, lkind⟩ := lhs
        simp only [visitF, Expr.kind]
        have hchain := ih (visitF n rs (Sum.inl (.mk lidn lspan lkind))) (Sum.inl rhs) k
          (ih rs (Sum.inl (.mk lidn lspan lkind)) k hk)
        cases op with
        | equals =>
          cases lkind with
          | identifier s => exact hchain
          | numberLit m => exact hchain
          | binary a b c => exact hchain
          | fnCall a b => exact hchain
          | lambda a b c => exact hchain
        | plus => exact hchain
        | otherOp => exact hchain
      | fnCall callee args =>
        simp only [visitF, Expr.kind]
        exact foldl_table_mono _ (fun rs a k h => ih rs (Sum.inl a) k h) args
          (visitF n rs (Sum.inl callee)) k (ih rs (Sum.inl callee) k hk)
      | lambda inner params body =>
        simp only [visitF, Expr.kind]
        apply lookupTable_cons_isSome
        apply foldl_table_mono _ (fun rs a k h => ih rs (Sum.inr a) k h) body
        apply foldl_table_mono _ (fun rs a k h => ih rs (Sum.inr a) k h) params
        exact hk
    · obtain ⟨idn, span, kind⟩ := s
      cases kind with
      | letDeclaration ident init =>
        simp only [visitF, Stmt.kind]
        apply lookupTable_cons_isSome
        exact ih rs (Sum.inl init) k hk
      | fnParam ident =>
        simp only [visitF, Stmt.kind]
        apply lookupTable_cons_isSome
        exact hk
      | fnDeclaration ident params body =>
        simp only [visitF, Stmt.kind]
        apply foldl_table_mono _ (fun rs a k h => ih rs (Sum.inr a) k h) body
        apply foldl_table_mono _ (fun rs a k h => ih rs (Sum.inr a) k h) params
        apply lookupTable_cons_isSome
        exact hk
      | blockStmt body =>
        simp only [visitF, Stmt.kind]
        apply foldl_table_mono _ (fun rs a k h => ih rs (Sum.inr a) k h) body
        exact hk
      | ifElseStmt cond if_block else_block =>
        simp only [visitF, Stmt.kind]
        cases else_block with
        | none =>
          apply foldl_table_mono _ (fun rs a k h => ih rs (Sum.inr a) k h) if_block
          exact ih rs (Sum.inl cond) k hk
        | some els =>
          apply foldl_table_mono _ (fun rs a k h => ih rs (Sum.inr a) k h) els
          apply foldl_table_mono _ (fun rs a k h => ih rs (Sum.inr a) k h) if_block
          exact ih rs (Sum.inl cond) k hk
      | whileStmt cond body =>
        simp only [visitF, Stmt.kind]
        apply foldl_table_mono _ (fun rs a k h => ih rs (Sum.inr a) k h) body
        exact ih rs (Sum.inl cond) k hk
      | exprStmt e => exact ih rs (Sum.inl e) k hk
      | returnStmt e => exact ih rs (Sum.inl e) k hk
      | lambdaMarker => exact hk
      | errorStmt => exact hk

/-- C5: exiting a block scope decrements the top of `function_scope_depths`
and keeps in `accessible_symbols` exactly the symbols whose declaring depth is
at most the new top value (dropping the strictly deeper ones), while the
declaration table is untouched; and no visit of any statement or expression,
at any fuel, ever removes a key from `symbol_table` — membership is
permanent. -/
theorem c5_scope_exit_and_table_permanence :
    (∀ rs : Resolver,
      rs.exit_scope.topDepth = rs.topDepth - 1 ∧
      rs.exit_scope.accessible_symbols =
        rs.accessible_symbols.filter
          (fun sid => decide ((rs.getSym sid).scope_depth ≤ rs.topDepth - 1)) ∧
      rs.exit_scope.symbol_table = rs.symbol_table) ∧
    (∀ (n : Nat) (rs : Resolver) (t : Expr ⊕ Stmt) (k : Nat),
      (lookupTable rs.symbol_table k).isSome = true →
      (lookupTable (visitF n rs t).symbol_table k).isSome = true) := by
  constructor
  · intro rs
    refine ⟨?_, ?_, rfl⟩
    · exact topDepth_setTopDepth rs (rs.topDepth - 1)
    · simp only [Resolver.exit_scope, topDepth_setTopDepth]
      rfl
  · exact visitF_table_mono

/-- C5 (witness): applied to the block-capture run's final state (which holds
statement keys 1, 3, 5, 6): visiting one more let statement keeps key 3
present. -/
theorem c5_scope_exit_and_table_permanence_witness :
    (lookupTable (visitF 4 runBlockCapture
        (Sum.inr (.mk 40 (0, 1) (.letDeclaration "z" (.mk 41 (0, 1)
          (.numberLit 7)))))).symbol_table 3).isSome = true := by
  exact c5_scope_exit_and_table_permanence.2 4 runBlockCapture
    (Sum.inr (.mk 40 (0, 1) (.letDeclaration "z" (.mk 41 (0, 1) (.numberLit 7))))) 3
    (by decide)

/-- C7: an identifier use matching no accessible symbol appends exactly one
unresolved-symbol diagnostic (carrying the identifier text and the
expression's span) and changes nothing else — in particular no
`resolved_symbol_table` entry is created — and resolution of the rest of the
program continues: in `undeclared; let x = 1; x;` exactly one diagnostic is
produced, use-site 2 has no entry, and the later use of `x` still
resolves. -/
theorem c7_unresolved_identifier :
    (∀ (rs : Resolver) (ident : String) (span : Nat × Nat),
      scanAccessible rs.symbols ident rs.accessible_symbols = none →
      rs.resolve_symbol ident span =
        ({ rs with errors := rs.errors ++ [unresolvedDiag ident span] }, none)) ∧
    (∀ (n : Nat) (rs : Resolver) (idn : Nat) (span : Nat × Nat) (ident : String),
      scanAccessible rs.symbols ident rs.accessible_symbols = none →
      visitF (n + 1) rs (Sum.inl (.mk idn span (.identifier ident))) =
        { rs with errors := rs.errors ++ [unresolvedDiag ident span] }) ∧
    runUnresolved.errors = [unresolvedDiag "undeclared" (0, 10)] ∧
    lookupTable runUnresolved.resolved_symbol_table 2 = none ∧
    (lookupTable runUnresolved.resolved_symbol_table 6).isSome = true := by
  refine ⟨resolve_symbol_none, ?_, by decide, by decide, by decide⟩
  intro n rs idn span ident hscan
  have hres := resolve_symbol_none rs ident span hscan
  simp only [visitF, Expr.kind, Expr.span, Expr.nodeId, hres]

/-- C7 (witness): resolving `undeclared` in the empty resolver appends the one
diagnostic and returns `none`, and one visit step does the same. -/
theorem c7_unresolved_identifier_witness :
    Resolver.new.resolve_symbol "undeclared" (0, 10) =
      ({ Resolver.new with errors := [unresolvedDiag "undeclared" (0, 10)] }, none) ∧
    visitF 1 Resolver.new (Sum.inl (.mk 2 (0, 10) (.identifier "undeclared"))) =
      { Resolver.new with errors := [unresolvedDiag "undeclared" (0, 10)] } := by
  constructor
  · exact c7_unresolved_identifier.1 Resolver.new "undeclared" (0, 10) (by decide)
  · exact c7_unresolved_identifier.2.1 0 Resolver.new 2 (0, 10) "undeclared" (by decide)

/-- C8: a binary expression with the assignment operator whose left operand is
not a plain identifier registers exactly one invalid-assignment-target
diagnostic after walking both operands, leaving every table exactly as the
walk left it; with an identifier left operand no such diagnostic is added;
concretely `1 = 2; let y = 3; y;` produces exactly that one diagnostic and
the rest of the program still resolves. -/
theorem c8_invalid_assignment_target :
    (∀ (n : Nat) (rs : Resolver) (idn : Nat) (span : Nat × Nat) (lhs rhs : Expr),
      (∀ s : String, lhs.kind ≠ ExprKind.identifier s) →
      visitF (n + 1) rs (Sum.inl (.mk idn span (.binary lhs .equals rhs))) =
        { visitF n (visitF n rs (Sum.inl lhs)) (Sum.inl rhs) with
            errors := (visitF n (visitF n rs (Sum.inl lhs)) (Sum.inl rhs)).errors ++
              [invalidAssignDiag lhs.span] }) ∧
    (∀ (n : Nat) (rs : Resolver) (idn lidn : Nat) (span lspan : Nat × Nat)
        (s : String) (rhs : Expr),
      visitF (n + 1) rs
          (Sum.inl (.mk idn span
            (.binary (.mk lidn lspan (.identifier s)) .equals rhs))) =
        visitF n (visitF n rs (Sum.inl (.mk lidn lspan (.identifier s))))
          (Sum.inl rhs)) ∧
    runBadAssign.errors = [invalidAssignDiag (0, 1)] ∧
    runBadAssign.resolved_symbol_table.length = 1 ∧
    (lookupTable runBadAssign.resolved_symbol_table 8).isSome = true := by
  refine ⟨?_, ?_, by decide, by decide, by decide⟩
  · intro n rs idn span lhs rhs hnid
    obtain ⟨lidn, lspan, lkind⟩ := lhs
    simp only [visitF, Expr.kind]
    cases lkind with
    | identifier s => exact absurd rfl (hnid s)
    | numberLit m => rfl
    | binary a b c => rfl
    | fnCall a b => rfl
    | lambda a b c => rfl
  · intro n rs idn lidn span lspan s rhs
    simp only [visitF, Expr.kind]

/-- C8 (witness): the first part applied to `1 = 2` in the empty resolver:
exactly the invalid-assignment diagnostic is appended. -/
theorem c8_invalid_assignment_target_witness :
    visitF 2 Resolver.new
        (Sum.inl (.mk 2 (0, 5) (.binary (.mk 3 (0, 1) (.numberLit 1)) .equals
          (.mk 4 (4, 5) (.numberLit 2))))) =
      { Resolver.new with errors := [invalidAssignDiag (0, 1)] } := by
  have h := c8_invalid_assignment_target.1 1 Resolver.new 2 (0, 5)
    (.mk 3 (0, 1) (.numberLit 1)) (.mk 4 (4, 5) (.numberLit 2))
    (fun s => by simp [Expr.kind])
  rw [h]
  decide

/-- C10: an identifier use that resolves to a global-level symbol while the
current function-nesting level is positive records a `ResolvedSymbol` with
`is_global = true` and `is_upvalue = true` simultaneously, offset equal to
the global positional index, and the state — in particular every upvalue
list — is otherwise unchanged; concretely in `let g = 1; fn f() { return g; }`
the use of `g` gets both flags and no upvalue entry exists anywhere. -/
theorem c10_global_upvalue_flags :
    (∀ (n : Nat) (rs : Resolver) (idn : Nat) (span : Nat × Nat) (ident : String)
        (i sid : Nat),
      scanAccessible rs.symbols ident rs.accessible_symbols = some (i, sid) →
      rs.find_function_scope_depth (rs.getSym sid).scope_depth = 0 →
      0 < rs.find_function_scope_depth rs.topDepth →
      visitF (n + 1) rs (Sum.inl (.mk idn span (.identifier ident))) =
        { rs with resolved_symbol_table :=
            (idn, { offset := (i : Int), is_global := true, is_upvalue := true,
                    symbol := sid }) :: rs.resolved_symbol_table }) ∧
    lookupTable runGlobalUse.resolved_symbol_table 5 =
      some { offset := 0, is_global := true, is_upvalue := true, symbol := 0 } ∧
    runGlobalUse.function_upvalues = [[]] ∧
    (runGlobalUse.getSym 0).upvalues = [] ∧
    (runGlobalUse.getSym 1).upvalues = [] := by
  refine ⟨?_, by decide, by decide, by decide, by decide⟩
  intro n rs idn span ident i sid hscan hglob hcur
  have hres := resolve_symbol_global rs ident span i sid hscan hglob
  simp only [visitF, Expr.kind, Expr.span, Expr.nodeId, hres]
  simp [hglob, hcur]

/-- C10 (witness): the flag theorem applied to the mid-resolution state of
`runGlobalUse` at the use of `g`. -/
theorem c10_global_upvalue_flags_witness :
    visitF 3 rsMidGlobalUse (Sum.inl (.mk 5 (27, 28) (.identifier "g"))) =
      { rsMidGlobalUse with resolved_symbol_table :=
          [(5, { offset := 0, is_global := true, is_upvalue := true, symbol := 0 })] } := by
  have h := c10_global_upvalue_flags.1 2 rsMidGlobalUse 5 (27, 28) "g" 0 0
    (by decide) (by decide) (by decide)
  exact h

end Ella
